import Mathlib

/-!
The brightcloud client: request signing (oauth.go) and URL pre-validation
(brightcloud.go).

A shallow embedding of the signer of `src/oauth.go` and of the candidate
computation of `Service.Info` in `src/brightcloud.go`.

Go strings are byte sequences, so a string is a list of bytes.  The wall
clock and the random source are inputs of `SignRequest`.  The digest and
encoding primitives of the Go standard library (HMAC-SHA1, MD5, base64) are
parameters, collected in `Crypto`.  The ordered parameters of the dependency
`github.com/mrjones/oauth` follow that package: `Add` stores the escaped value,
`Keys` sorts the names and `Get` sorts the values.
-/

namespace Brightcloud

/-! ## Strings -/

/-- One byte of a Go string. -/
abbrev Byte := Fin 256

/-- A Go string: a sequence of bytes. -/
abbrev Str := List Byte

/-- The bytes (UTF-8) of a string literal. -/
def str (s : String) : Str :=
  s.data.flatMap (fun c => (String.utf8EncodeChar c).map (fun b => Fin.ofNat b.toNat))

/-- The `strings.Join` of Go. -/
def join (elems : List Str) (sep : Str) : Str :=
  List.intercalate sep elems

/-! ## Percent-escaping (`net/url`) -/

/-- Modelled from the spec: `shouldEscape` of the Go package `net/url` in query-component
mode, which is not under src/; the spec calls for the escaping rules of
query-parameter encoding.  Letters, digits and `-`, `_`, `.`, `~` are kept,
every other byte is escaped. -/
def shouldEscape (c : Byte) : Bool :=
  if (97 ≤ c.val ∧ c.val ≤ 122) ∨ (65 ≤ c.val ∧ c.val ≤ 90) ∨ (48 ≤ c.val ∧ c.val ≤ 57) then
    false
  else if c = 45 ∨ c = 95 ∨ c = 46 ∨ c = 126 then
    false
  else
    true

/-- The table `"0123456789ABCDEF"` of `net/url`, indexed by a nibble. -/
def upperhex (n : Nat) : Byte :=
  (str "0123456789ABCDEF").getD n 0

/-- The bytes one input byte is escaped to. -/
def escapeByte (c : Byte) : Str :=
  if c = 32 then [43]
  else if shouldEscape c then [37, upperhex (c.val >>> 4), upperhex (c.val &&& 15)]
  else [c]

/-- Modelled from the spec: `url.QueryEscape` of the Go package `net/url`, which is not
under src/; the percent-escaping of the signer.  A space becomes `+`, a byte
that `shouldEscape` selects becomes `%XX` in upper-case hex, every other byte
is copied. -/
def QueryEscape (s : Str) : Str :=
  s.flatMap escapeByte

/-- The `ishex` of `net/url`. -/
def ishex (c : Byte) : Bool :=
  (48 ≤ c.val ∧ c.val ≤ 57) ∨ (97 ≤ c.val ∧ c.val ≤ 102) ∨ (65 ≤ c.val ∧ c.val ≤ 70)

/-- The `unhex` of `net/url`. -/
def unhex (c : Byte) : Nat :=
  if 48 ≤ c.val ∧ c.val ≤ 57 then c.val - 48
  else if 97 ≤ c.val ∧ c.val ≤ 102 then c.val - 97 + 10
  else if 65 ≤ c.val ∧ c.val ≤ 70 then c.val - 65 + 10
  else 0

/-- Modelled from the spec: `url.QueryUnescape` of the Go package `net/url`, which is
not under src/; the inverse that the escape-then-unescape property of the spec
speaks of.  `+` becomes a space, `%XX` becomes the byte with that hex value, and a
`%` that two hex digits do not follow is an error (`none`). -/
def QueryUnescape : Str → Option Str
  | [] => some []
  | c :: rest =>
    if c = 37 then
      match rest with
      | h :: l :: rest2 =>
        if ishex h ∧ ishex l then
          (QueryUnescape rest2).map (fun t => Fin.ofNat ((unhex h <<< 4) ||| unhex l) :: t)
        else none
      | _ => none
    else if c = 43 then
      (QueryUnescape rest).map (fun t => 32 :: t)
    else
      (QueryUnescape rest).map (fun t => c :: t)

/-! ## Formatting -/

/-- The decimal digits of a natural number, as bytes. -/
def formatNat (n : Nat) : Str :=
  (Nat.toDigits 10 n).map (fun c => Fin.ofNat c.toNat)

/-- The rendering `fmt.Sprintf("%v", i)` of an integer: decimal, with a
leading `-` when negative. -/
def formatInt : Int → Str
  | Int.ofNat n => formatNat n
  | Int.negSucc n => 45 :: formatNat (n + 1)

/-- The table `"0123456789abcdef"` of `fmt`, indexed by a nibble. -/
def lowerhex (n : Nat) : Byte :=
  (str "0123456789abcdef").getD n 0

/-- The rendering `fmt.Sprintf("%x", b)` of a byte slice: two lower-case hex
digits per byte. -/
def formatHex (b : Str) : Str :=
  b.flatMap (fun c => [lowerhex (c.val >>> 4), lowerhex (c.val &&& 15)])

/-! ## Requests (`net/http`, `net/url`) -/

/-- The fields of `url.URL` the signer reads, and the query and fragment it
does not.  `Host` is "host or host:port", as in Go. -/
structure URL where
  Scheme : Str
  Host : Str
  Path : Str
  RawQuery : Str
  Fragment : Str
deriving DecidableEq

/-- The `strings.LastIndexByte` of Go; `none` stands for -1. -/
def lastIndexByte : Str → Byte → Option Nat
  | [], _ => none
  | x :: xs, c =>
    match lastIndexByte xs c with
    | some i => some (i + 1)
    | none => if x = c then some 0 else none

/-- The `validOptionalPort` of `net/url`: empty, or `:` followed by digits. -/
def validOptionalPort (port : Str) : Bool :=
  match port with
  | [] => true
  | c :: ds => c = 58 ∧ ds.all (fun b => 48 ≤ b.val ∧ b.val ≤ 57)

/-- The `splitHostPort` of `net/url`: host and port of "host:port", the port
empty when there is none; brackets of an IPv6 literal are removed. -/
def splitHostPort (hostPort : Str) : Str × Str :=
  let hp : Str × Str :=
    match lastIndexByte hostPort 58 with
    | some colon =>
      if validOptionalPort (hostPort.drop colon) then
        (hostPort.take colon, hostPort.drop (colon + 1))
      else (hostPort, [])
    | none => (hostPort, [])
  let host := hp.1
  if host.head? = some 91 ∧ host.getLast? = some 93 then
    ((host.drop 1).take (host.length - 2), hp.2)
  else hp

/-- The `(*URL).Port` of Go: the port part of `Host`, without the colon. -/
def URL.Port (u : URL) : Str :=
  (splitHostPort u.Host).2

/-- The `(*URL).Hostname` of Go: `Host` without the port. -/
def URL.Hostname (u : URL) : Str :=
  (splitHostPort u.Host).1

/-- An `http.Header`: the values stored under each header name. -/
abbrev Header := Str → List Str

/-- The `Header.Add` of Go for a name already in canonical form (as
`Authorization` is): the value is appended to the values of that name. -/
def Header.Add (h : Header) (key value : Str) : Header :=
  fun k => if k = key then h k ++ [value] else h k

/-- The parts of `http.Request` in play. -/
structure Request where
  Method : Str
  URL : URL
  Header : Header
  Body : Str

/-! ## Ordered parameters (`github.com/mrjones/oauth`) -/

/-- The `isEscapable` of the package `github.com/mrjones/oauth`, a dependency whose
source is not under src/: every byte but letters, digits and `-`, `.`, `_`, `~`. -/
def isEscapable (b : Byte) : Bool :=
  !((65 ≤ b.val ∧ b.val ≤ 90) ∨ (97 ≤ b.val ∧ b.val ≤ 122) ∨ (48 ≤ b.val ∧ b.val ≤ 57) ∨
    b = 45 ∨ b = 46 ∨ b = 95 ∨ b = 126)

/-- The `escape` of the package `github.com/mrjones/oauth` (not under src/): an
escapable byte becomes `%XX` in upper-case hex (a space becomes `%20`), every other
byte is copied. -/
def escape (s : Str) : Str :=
  s.flatMap (fun c =>
    if isEscapable c then [37, upperhex (c.val >>> 4), upperhex (c.val &&& 15)] else [c])

/-- The order `<` of Go on strings: byte by byte, a proper initial segment first. -/
def strLess : Str → Str → Bool
  | [], [] => false
  | [], _ :: _ => true
  | _ :: _, [] => false
  | a :: as, b :: bs =>
    if a.val < b.val then true else if b.val < a.val then false else strLess as bs

/-- One string put into a sorted list of strings, before the first that is not below it. -/
def insertSorted (x : Str) : List Str → List Str
  | [] => [x]
  | y :: ys => if strLess y x then y :: insertSorted x ys else x :: y :: ys

/-- The result of `sort.Strings`, and of `sort.Sort` with `strLess` as `Less`: the
strings in increasing order. -/
def sortStrings (l : List Str) : List Str :=
  l.foldr insertSorted []

/-- The `OrderedParams` type of the package `github.com/mrjones/oauth` (not under
src/): the parameter names in the order they were first added, each with the values
stored under it (the fields `keyOrdering` and `allParams`). -/
structure OrderedParams where
  entries : List (Str × List Str)
deriving DecidableEq

/-- The `oauth.NewOrderedParams` of that package: the empty mapping. -/
def NewOrderedParams : OrderedParams :=
  ⟨[]⟩

/-- The `OrderedParams.AddUnescaped` of that package.  A new name goes to the end of
the key order with the value as its one value; a name already present gets one more
value. -/
def OrderedParams.AddUnescaped (p : OrderedParams) (key value : Str) : OrderedParams :=
  if p.entries.any (fun e => e.1 = key) then
    ⟨p.entries.map (fun e => if e.1 = key then (e.1, e.2 ++ [value]) else e)⟩
  else
    ⟨p.entries ++ [(key, [value])]⟩

/-- The `OrderedParams.Add` of that package: the value is stored escaped. -/
def OrderedParams.Add (p : OrderedParams) (key value : Str) : OrderedParams :=
  p.AddUnescaped key (escape value)

/-- The `OrderedParams.Keys` of that package: the key order is sorted and returned. -/
def OrderedParams.Keys (p : OrderedParams) : List Str :=
  sortStrings (p.entries.map Prod.fst)

/-- The `OrderedParams.Get` of that package: the values stored under a name, sorted. -/
def OrderedParams.Get (p : OrderedParams) (key : Str) : List Str :=
  match p.entries.find? (fun e => e.1 = key) with
  | some e => sortStrings e.2
  | none => []

/-- The (name, value) pairs of the mapping in the order a loop over `Keys`
and, inside it, over `Get` visits them. -/
def OrderedParams.pairs (p : OrderedParams) : List (Str × Str) :=
  p.Keys.flatMap (fun key => (p.Get key).map (fun value => (key, value)))

/-! ## The signer (`src/oauth.go`) -/

/-- The digest and encoding functions of the Go standard library that the
signer calls; they are parameters of the model. -/
structure Crypto where
  /-- HMAC-SHA1 of a message under a key: `hmac.New(sha1.New, key)`, `Write`, `Sum(nil)`. -/
  hmacSHA1 : Str → Str → Str
  /-- MD5 digest of the bytes written: `md5.New()`, `Write`, `Sum(nil)`. -/
  md5Sum : Str → Str
  /-- Standard base64: `base64.StdEncoding.EncodeToString`. -/
  base64 : Str → Str

/-- OAuth consumer. -/
structure OAuth where
  key : Str
  secret : Str
deriving DecidableEq

/-- NewOauthConsumer will configure a new oauth instance. -/
def NewOauthConsumer (key secret : Str) : OAuth :=
  { key := key, secret := secret }

/-- The normalized URL of `baseString` (oauth.go, lines 65-69). -/
def normalizedURL (u : URL) : Str :=
  let port : Str :=
    if u.Port ≠ str "443" ∧ u.Port ≠ str "80" ∧ u.Port ≠ [] then str ":" ++ u.Port else []
  u.Scheme ++ str "://" ++ u.Host ++ port ++ u.Path

/-- The assignment `params[pos] = v` on a slice: `none` is the run-time panic
of an index out of range. -/
def setIndex (params : List Str) (pos : Nat) (v : Str) : Option (List Str) :=
  if pos < params.length then some (params.set pos v) else none

/-- The `params` slice of `baseString` (oauth.go, lines 73-78): five empty
strings, then for each key at position `pos` and each of its values the
escaped `key=value` is stored at `params[pos]`. -/
def baseParams (orderedParams : OrderedParams) : Option (List Str) :=
  orderedParams.Keys.enum.foldlM
    (fun params pk =>
      (orderedParams.Get pk.2).foldlM
        (fun params value => setIndex params pk.1 (QueryEscape (pk.2 ++ str "=" ++ value)))
        params)
    (List.replicate 5 [])

/-- The `baseString` of oauth.go: method, escaped normalized URL and the
joined parameter slice, joined by `&`. -/
def baseString (_o : OAuth) (req : Request) (orderedParams : OrderedParams) : Option Str :=
  match baseParams orderedParams with
  | none => none
  | some params =>
    some (join [req.Method, QueryEscape (normalizedURL req.URL), join params (str "%26")] (str "&"))

/-- The `buildSignature` of oauth.go. -/
def buildSignature (c : Crypto) (o : OAuth) (_req : Request) (basestring : Str) : Str :=
  let key := QueryEscape o.secret ++ str "&"
  let rawHash := c.hmacSHA1 key basestring
  QueryEscape (c.base64 rawHash)

/-- The `Write` of a `hash.Hash`: the bytes are appended to what was written
and, by the contract of `hash.Hash`, the error is always nil. -/
def hashWrite (written b : Str) : Str × Option Str :=
  (written ++ b, none)

/-- The `generateNonce` of oauth.go.  `read` is the outcome of `rand.Read` on
the 16-byte buffer: an error, or the bytes the buffer then holds. -/
def generateNonce (c : Crypto) (read : Except Str Str) : Except Str Str :=
  match read with
  | .error err => .error err
  | .ok b =>
    match hashWrite [] b with
    | (_, some err) => .error err
    | (written, none) => .ok (formatHex (c.md5Sum written))

/-- The ordered parameters `SignRequest` builds (oauth.go, lines 27-37), for
a consumer key, a rendered timestamp and a nonce. -/
def signatureParameters (key timestamp nonce : Str) : OrderedParams :=
  let orderedParams := NewOrderedParams
  let orderedParams := orderedParams.Add (str "oauth_version") (str "1.0")
  let orderedParams := orderedParams.Add (str "oauth_consumer_key") key
  let orderedParams := orderedParams.Add (str "oauth_signature_method") (str "HMAC-SHA1")
  let orderedParams := orderedParams.Add (str "oauth_timestamp") timestamp
  orderedParams.Add (str "oauth_nonce") nonce

/-- The `authHeaderParams` slice of `SignRequest` (oauth.go, lines 44-50). -/
def authHeaderParams (orderedParams : OrderedParams) : List Str :=
  orderedParams.Keys.flatMap (fun key =>
    (orderedParams.Get key).map (fun value =>
      QueryEscape key ++ str "=\"" ++ QueryEscape value ++ str "\""))

/-- The Authorization header value of `SignRequest` (oauth.go, lines 43-52). -/
def authHeader (orderedParams : OrderedParams) (sig : Str) : Str :=
  let authHeader := str "OAuth realm=\"\","
  let authHeader := authHeader ++ join (authHeaderParams orderedParams) (str ",")
  authHeader ++ (str ",oauth_signature=\"" ++ sig ++ str "\"")

/-- How a call of `SignRequest` ends. -/
inductive Outcome where
  /-- The call `log.Fatalf`: the message is logged and the process exits. -/
  | fatal (msg : Str)
  /-- The run-time panic of an index out of range. -/
  | panicked
  /-- The call returns the request. -/
  | returned (req : Request)

/-- The `SignRequest` of oauth.go.  `now` is `time.Now().Unix()` and `read`
the outcome of `rand.Read` inside `generateNonce`. -/
def SignRequest (c : Crypto) (o : OAuth) (req : Request) (now : Int)
    (read : Except Str Str) : Outcome :=
  match generateNonce c read with
  | .error err => .fatal (str "unable to generate nonce: " ++ err)
  | .ok nonce =>
    let orderedParams := signatureParameters o.key (formatInt now) nonce
    match baseString o req orderedParams with
    | none => .panicked
    | some baseString =>
      let sig := buildSignature c o req baseString
      .returned { req with Header := req.Header.Add (str "Authorization") (authHeader orderedParams sig) }

/-! ## URL pre-validation (`src/brightcloud.go`) -/

/-- The candidate `validateURL` that `Service.Info` hands to
`url.ParseRequestURI` (brightcloud.go, lines 76-83). -/
def validateURL (reqURL : Str) : Str :=
  if reqURL.length > 8 then
    if reqURL.take 8 ≠ str "https://" ∧ reqURL.take 7 ≠ str "http://" then
      str "http://" ++ reqURL
    else reqURL
  else
    str "http://" ++ reqURL

/-! ## Checks on concrete inputs -/

set_option maxRecDepth 100000 in
theorem QueryEscape_sample : QueryEscape (str "http://a b/~x?y=1&z") = str "http%3A%2F%2Fa+b%2F~x%3Fy%3D1%26z" := by decide

set_option maxRecDepth 100000 in
theorem QueryUnescape_sample : QueryUnescape (str "http%3A%2F%2Fa+b%2F~x%3fy%3D1%26z") = some (str "http://a b/~x?y=1&z") := by
  decide

theorem QueryUnescape_truncated : QueryUnescape (str "ab%4") = none := by decide

theorem formatInt_sample : formatInt 1000000000 = str "1000000000" := by decide

theorem formatInt_negative : formatInt (-42) = str "-42" := by decide

theorem formatHex_sample : formatHex [0, 171, 255] = str "00abff" := by decide

theorem splitHostPort_port : splitHostPort (str "example.com:8080") = (str "example.com", str "8080") := by decide

theorem splitHostPort_bracket : splitHostPort (str "[::1]:80") = (str "::1", str "80") := by decide

theorem splitHostPort_plain : splitHostPort (str "example.com") = (str "example.com", []) := by decide

theorem escape_sample : escape (str "A B~+/") = str "A%20B~%2B%2F" := by decide

theorem sortStrings_sample :
    sortStrings [str "b", str "ab", str "a", str "B", str "ab"] =
      [str "B", str "a", str "ab", str "ab", str "b"] := by decide

set_option maxRecDepth 100000 in
theorem Keys_sample :
    (signatureParameters (str "AK") (str "1") (str "n")).Keys =
      [str "oauth_consumer_key", str "oauth_nonce", str "oauth_signature_method",
       str "oauth_timestamp", str "oauth_version"] := by decide

/-! ## Percent-escaping round trip -/

set_option maxRecDepth 100000 in
theorem hex_roundtrip : ∀ c : Byte,
    ishex (upperhex (c.val >>> 4)) = true ∧ ishex (upperhex (c.val &&& 15)) = true ∧
      (Fin.ofNat ((unhex (upperhex (c.val >>> 4)) <<< 4) ||| unhex (upperhex (c.val &&& 15))) : Byte) = c := by
  decide

set_option maxRecDepth 100000 in
theorem kept_byte_plain : ∀ c : Byte, shouldEscape c = false → c ≠ 37 ∧ c ≠ 43 := by
  decide

theorem QueryUnescape_cons_other (c : Byte) (rest : Str) (h37 : c ≠ 37) :
    QueryUnescape (c :: rest) =
      if c = 43 then (QueryUnescape rest).map (fun t => 32 :: t)
      else (QueryUnescape rest).map (fun t => c :: t) := by
  rw [QueryUnescape.eq_def]
  simp [h37]

theorem QueryUnescape_escapeByte (c : Byte) (rest : Str) :
    QueryUnescape (escapeByte c ++ rest) = (QueryUnescape rest).map (fun t => c :: t) := by
  unfold escapeByte
  by_cases h32 : c = 32
  · subst h32
    simp [QueryUnescape_cons_other]
  · by_cases hs : shouldEscape c = true
    · obtain ⟨h1, h2, h3⟩ := hex_roundtrip c
      simp [h32, hs, QueryUnescape, h1, h2, h3]
    · have hs2 : shouldEscape c = false := by simpa using hs
      obtain ⟨h37, h43⟩ := kept_byte_plain c hs2
      simp [h32, hs2, QueryUnescape_cons_other, h37, h43]

/-- C8: unescaping an escaped string gives the string back, for every byte string, so in
particular for printable ASCII and for valid UTF-8. -/
theorem C8_escape_then_unescape (v : Str) : QueryUnescape (QueryEscape v) = some v := by
  induction v with
  | nil => simp [QueryEscape, QueryUnescape]
  | cons c rest ih =>
    have h : QueryEscape (c :: rest) = escapeByte c ++ QueryEscape rest := by
      simp [QueryEscape]
    rw [h, QueryUnescape_escapeByte, ih]
    rfl


/-! ## Shape of the parameters and of the rendered timestamp -/

theorem signatureParameters_entries (key timestamp nonce : Str) :
    signatureParameters key timestamp nonce =
      ⟨[(str "oauth_version", [str "1.0"]), (str "oauth_consumer_key", [escape key]),
        (str "oauth_signature_method", [str "HMAC-SHA1"]),
        (str "oauth_timestamp", [escape timestamp]), (str "oauth_nonce", [escape nonce])]⟩ := by
  rfl

set_option maxRecDepth 100000 in
theorem pairs_signatureParameters (key timestamp nonce : Str) :
    (signatureParameters key timestamp nonce).pairs =
      [(str "oauth_consumer_key", escape key), (str "oauth_nonce", escape nonce),
       (str "oauth_signature_method", str "HMAC-SHA1"),
       (str "oauth_timestamp", escape timestamp), (str "oauth_version", str "1.0")] := by
  rfl

set_option maxRecDepth 100000 in
theorem baseParams_signatureParameters (key timestamp nonce : Str) :
    baseParams (signatureParameters key timestamp nonce) =
      some [QueryEscape (str "oauth_consumer_key" ++ str "=" ++ escape key),
        QueryEscape (str "oauth_nonce" ++ str "=" ++ escape nonce),
        QueryEscape (str "oauth_signature_method" ++ str "=" ++ str "HMAC-SHA1"),
        QueryEscape (str "oauth_timestamp" ++ str "=" ++ escape timestamp),
        QueryEscape (str "oauth_version" ++ str "=" ++ str "1.0")] := by
  rfl

theorem QueryEscape_append (a b : Str) : QueryEscape (a ++ b) = QueryEscape a ++ QueryEscape b := by
  simp [QueryEscape]

set_option maxRecDepth 100000 in
theorem baseString_signatureParameters (o : OAuth) (req : Request) (k t n : Str) :
    baseString o req (signatureParameters k t n) =
      some (req.Method ++ str "&" ++ QueryEscape (normalizedURL req.URL) ++ str "&" ++
        (QueryEscape (str "oauth_consumer_key=" ++ escape k) ++ str "%26" ++
         QueryEscape (str "oauth_nonce=" ++ escape n) ++ str "%26" ++
         QueryEscape (str "oauth_signature_method=HMAC-SHA1") ++ str "%26" ++
         QueryEscape (str "oauth_timestamp=" ++ escape t) ++ str "%26" ++
         QueryEscape (str "oauth_version=1.0"))) := by
  simp only [baseString, baseParams_signatureParameters, join, List.intercalate,
    List.intersperse, List.flatten, List.append_assoc, List.append_nil, QueryEscape_append]
  rfl

set_option maxRecDepth 100000 in
/-- C1 (as amended): for every method, URL, consumer key, timestamp and nonce, `baseString`
on the five parameters returns method, `&`, the escaped normalized URL, `&`, and the five
strings `QueryEscape(key=escape(value))` with `%26` between them, in the sorted key order
that `Keys` returns: consumer key, nonce, signature method, timestamp, version.  The
example of the spec yields the literal with the parameters in that order. -/
theorem C1_baseString_layout_sorted (o : OAuth) (req : Request) (k t n : Str) :
    baseString o req (signatureParameters k t n) =
        some (req.Method ++ str "&" ++ QueryEscape (normalizedURL req.URL) ++ str "&" ++
          (QueryEscape (str "oauth_consumer_key=" ++ escape k) ++ str "%26" ++
           QueryEscape (str "oauth_nonce=" ++ escape n) ++ str "%26" ++
           QueryEscape (str "oauth_signature_method=HMAC-SHA1") ++ str "%26" ++
           QueryEscape (str "oauth_timestamp=" ++ escape t) ++ str "%26" ++
           QueryEscape (str "oauth_version=1.0"))) ∧
      baseString (NewOauthConsumer (str "AK") (str "AS"))
          { Method := str "GET",
            URL := { Scheme := str "http", Host := str "thor.brightcloud.com",
                     Path := str "/rest/uris/example.com", RawQuery := [], Fragment := [] },
            Header := fun _ => [], Body := [] }
          (signatureParameters (str "AK") (str "1000000000") (str "abc123")) =
        some (str "GET&http%3A%2F%2Fthor.brightcloud.com%2Frest%2Furis%2Fexample.com&oauth_consumer_key%3DAK%26oauth_nonce%3Dabc123%26oauth_signature_method%3DHMAC-SHA1%26oauth_timestamp%3D1000000000%26oauth_version%3D1.0") :=
  ⟨baseString_signatureParameters o req k t n, by decide⟩

set_option maxRecDepth 100000 in
/-- C1, the claim as stated fails: at the example of the spec the base string is not the
literal of the spec, whose parameters are in insertion order; and with the consumer key
`A B` the pair of the key is `oauth_consumer_key%3DA%2520B`, the value escaped twice,
not the once-escaped `oauth_consumer_key%3DA+B`. -/
theorem C1_insertion_order_refuted :
    baseString (NewOauthConsumer (str "AK") (str "AS"))
          { Method := str "GET",
            URL := { Scheme := str "http", Host := str "thor.brightcloud.com",
                     Path := str "/rest/uris/example.com", RawQuery := [], Fragment := [] },
            Header := fun _ => [], Body := [] }
          (signatureParameters (str "AK") (str "1000000000") (str "abc123")) ≠
        some (str "GET&http%3A%2F%2Fthor.brightcloud.com%2Frest%2Furis%2Fexample.com&oauth_version%3D1.0%26oauth_consumer_key%3DAK%26oauth_signature_method%3DHMAC-SHA1%26oauth_timestamp%3D1000000000%26oauth_nonce%3Dabc123") ∧
      baseParams (signatureParameters (str "A B") (str "1000000000") (str "abc123")) =
        some [str "oauth_consumer_key%3DA%2520B", str "oauth_nonce%3Dabc123",
          str "oauth_signature_method%3DHMAC-SHA1", str "oauth_timestamp%3D1000000000",
          str "oauth_version%3D1.0"] ∧
      QueryEscape (str "oauth_consumer_key=A B") = str "oauth_consumer_key%3DA+B" := by
  decide

/-! ## The Authorization header -/

theorem generateNonce_ok (c : Crypto) (b : Str) :
    generateNonce c (.ok b) = .ok (formatHex (c.md5Sum b)) := by
  rfl

theorem SignRequest_ok (c : Crypto) (o : OAuth) (req : Request) (now : Int) (b : Str) :
    ∃ bs, baseString o req (signatureParameters o.key (formatInt now) (formatHex (c.md5Sum b))) =
        some bs ∧
      SignRequest c o req now (.ok b) =
        .returned { req with Header := (req.Header.Add (str "Authorization")
          (authHeader (signatureParameters o.key (formatInt now) (formatHex (c.md5Sum b)))
            (buildSignature c o req bs))) } := by
  have hbs := baseString_signatureParameters o req o.key (formatInt now) (formatHex (c.md5Sum b))
  refine ⟨_, hbs, ?_⟩
  simp only [SignRequest, generateNonce_ok, hbs]

set_option maxRecDepth 100000 in
/-- C4: the header value and the base string are rendered from one and the same sequence
of (name, value) pairs, the five parameters in the order of `Keys` with the values as
stored: the header joins `escape(name)="escape(value)"` over it, the base string joins
`escape(name=value)` over it. -/
theorem C4_header_order_is_base_string_order (o : OAuth) (req : Request) (k t n sig : Str) :
    (signatureParameters k t n).pairs =
        [(str "oauth_consumer_key", escape k), (str "oauth_nonce", escape n),
         (str "oauth_signature_method", str "HMAC-SHA1"), (str "oauth_timestamp", escape t),
         (str "oauth_version", str "1.0")] ∧
      authHeader (signatureParameters k t n) sig =
        str "OAuth realm=\"\"," ++
          join ((signatureParameters k t n).pairs.map
            (fun kv => QueryEscape kv.1 ++ str "=\"" ++ QueryEscape kv.2 ++ str "\"")) (str ",") ++
          (str ",oauth_signature=\"" ++ sig ++ str "\"") ∧
      baseString o req (signatureParameters k t n) =
        some (join [req.Method, QueryEscape (normalizedURL req.URL),
          join ((signatureParameters k t n).pairs.map
            (fun kv => QueryEscape (kv.1 ++ str "=" ++ kv.2))) (str "%26")] (str "&")) := by
  refine ⟨pairs_signatureParameters k t n, rfl, ?_⟩
  have h : baseParams (signatureParameters k t n) =
      some ((signatureParameters k t n).pairs.map
        (fun kv => QueryEscape (kv.1 ++ str "=" ++ kv.2))) := rfl
  simp only [baseString, h]

theorem QueryEscape_cons_ne_nil (c : Byte) (s : Str) : QueryEscape (c :: s) ≠ [] := by
  have h : escapeByte c ≠ [] := by
    unfold escapeByte
    split
    · simp
    · split <;> simp
  simp [QueryEscape, h]

set_option maxRecDepth 100000 in
/-- C9: on the parameters `SignRequest` builds, `baseString` stays inside its five-element
slice and fills all five slots with non-empty escaped pairs, and the third part of the
base string is these five strings with four `%26` joiners between them. -/
theorem C9_five_slots_filled (o : OAuth) (req : Request) (k t n : Str) :
    ∃ s0 s1 s2 s3 s4 : Str,
      baseParams (signatureParameters k t n) = some [s0, s1, s2, s3, s4] ∧
      [s0, s1, s2, s3, s4] = (signatureParameters k t n).pairs.map
        (fun kv => QueryEscape (kv.1 ++ str "=" ++ kv.2)) ∧
      s0 ≠ [] ∧ s1 ≠ [] ∧ s2 ≠ [] ∧ s3 ≠ [] ∧ s4 ≠ [] ∧
      baseString o req (signatureParameters k t n) =
        some (req.Method ++ str "&" ++ QueryEscape (normalizedURL req.URL) ++ str "&" ++
          (s0 ++ str "%26" ++ s1 ++ str "%26" ++ s2 ++ str "%26" ++ s3 ++ str "%26" ++ s4)) := by
  refine ⟨_, _, _, _, _, baseParams_signatureParameters k t n, rfl,
    QueryEscape_cons_ne_nil _ _, QueryEscape_cons_ne_nil _ _, QueryEscape_cons_ne_nil _ _,
    QueryEscape_cons_ne_nil _ _, QueryEscape_cons_ne_nil _ _, ?_⟩
  simp only [baseString, baseParams_signatureParameters, join, List.intercalate,
    List.intersperse, List.flatten, List.append_assoc, List.append_nil]

/-! ## The signature -/

/-- C5: `buildSignature` returns the escaped base64 of the HMAC-SHA1 of the base string
under the key `escape(secret) ++ "&"`; it depends on the secret and the base string only,
and two signings of requests with the same method and URL over the same parameters by the
same consumer give the same signature. -/
theorem C5_buildSignature_value (c : Crypto) (o : OAuth) (req : Request) (b : Str) :
    buildSignature c o req b =
        QueryEscape (c.base64 (c.hmacSHA1 (QueryEscape o.secret ++ str "&") b)) ∧
      (∀ (k2 : Str) (req2 : Request),
        buildSignature c { key := k2, secret := o.secret } req2 b = buildSignature c o req b) ∧
      (∀ (h2 : Header) (body2 : Str) (p : OrderedParams),
        (baseString o { req with Header := h2, Body := body2 } p).map
            (buildSignature c o { req with Header := h2, Body := body2 }) =
          (baseString o req p).map (buildSignature c o req)) :=
  ⟨rfl, fun _ _ => rfl, fun _ _ _ => rfl⟩

/-! ## Frame and failure -/

/-- C6: a call of `SignRequest` that returns leaves method, URL and body as they were,
leaves the values of every header name as they were, and appends one value to the values
of `Authorization`. -/
theorem C6_only_one_header_added (c : Crypto) (o : OAuth) (req : Request) (now : Int)
    (b : Str) :
    ∃ (r : Request) (v : Str), SignRequest c o req now (.ok b) = .returned r ∧
      r.Method = req.Method ∧ r.URL = req.URL ∧ r.Body = req.Body ∧
      ∀ name : Str, r.Header name =
        if name = str "Authorization" then req.Header name ++ [v] else req.Header name := by
  obtain ⟨bs, -, hs⟩ := SignRequest_ok c o req now b
  exact ⟨_, _, hs, rfl, rfl, rfl, fun _ => rfl⟩

set_option maxRecDepth 100000 in
/-- C2: the normalized URL at two URLs with a port.  With port 8080 the port appears
twice, because `Host` already holds it (`Hostname` is the accessor without it); with
port 80 the port is kept, for the same reason.  Without a port the result is scheme,
host and path, and the query and the fragment are left out. -/
theorem C2_normalizedURL_port_defect :
    URL.Port
        { Scheme := str "http", Host := str "example.com:8080", Path := str "/path",
          RawQuery := [], Fragment := [] } = str "8080" ∧
      URL.Hostname
        { Scheme := str "http", Host := str "example.com:8080", Path := str "/path",
          RawQuery := [], Fragment := [] } = str "example.com" ∧
      normalizedURL
        { Scheme := str "http", Host := str "example.com:8080", Path := str "/path",
          RawQuery := [], Fragment := [] } = str "http://example.com:8080:8080/path" ∧
      normalizedURL
        { Scheme := str "http", Host := str "example.com:80", Path := str "/path",
          RawQuery := [], Fragment := [] } = str "http://example.com:80/path" ∧
      normalizedURL
        { Scheme := str "https", Host := str "example.com", Path := str "/path",
          RawQuery := str "q=1", Fragment := str "top" } = str "https://example.com/path" := by
  decide

set_option maxRecDepth 100000 in
/-- C10: the candidate at inputs of at most eight bytes that begin with a scheme: a second
`http://` is put in front; a longer input that begins with a scheme is left as it is. -/
theorem C10_validateURL_short_input :
    validateURL (str "http://a") = str "http://http://a" ∧
      validateURL (str "https://") = str "http://https://" ∧
      validateURL (str "http://ab") = str "http://ab" := by
  decide

end Brightcloud
